import Mathlib

/-!
# Verification of the beanfuzz constraint-language core

Shallow embedding of the beanfuzz differential-fuzzing harness
(tokenizer, expression parser, specification parser, generator, runner
loop) and proofs about the claims of its specification.

Modelling conventions:
* Rust `i64` values are modelled as `Int`.  The one place where two
  parsed constants are subtracted and the result is observed modulo
  64-bit wraparound (the feasibility check in the expression parser) is
  modelled explicitly with `wrap64` (release-build wrapping semantics).
  Elsewhere the generator's arithmetic stays far from the `i64`
  boundaries for every expression the parser can produce, and is
  modelled exactly.
* Rust `HashMap` stores are modelled as association lists where `insert`
  prepends and `get` takes the most recent binding — observationally the
  insert/overwrite semantics of the source.
* The thread RNG is an oracle: an infinite stream of `Nat` draws plus a
  cursor.  `Uniform::from(lo..=hi).sample` is modelled as
  `lo + draw % (hi - lo + 1)`, which is a value in `[lo, hi]` whenever
  `lo ≤ hi`; `Uniform::from` with an empty range panics in the source
  and is modelled as a panic outcome.
* Rust panics (`expect`, out-of-bounds indexing, arithmetic underflow,
  empty `Uniform` ranges) are modelled as a `RunErr.panicked` outcome,
  kept distinct from `Err(AppError)` results: the caller's `match` in
  `main` catches only the latter, a panic aborts the whole process.
* String manipulation from the source (`split`, `split_whitespace`,
  `starts_with`, `ends_with`, `parse::<i64>`) is modelled structurally
  over the character list of the string, so that every concrete case
  reduces by `decide`/`rfl`.
-/

/-! ## Character-list string utilities (models of the Rust `str` methods) -/

/-- Model of Rust `str::split(sep)` for a one-character separator:
splits at every occurrence, keeping empty pieces (`"a::b"` gives
`["a", "", "b"]`, `""` gives `[""]`). -/
def split_char (sep : Char) : List Char → List (List Char)
  | [] => [[]]
  | c :: rest =>
    let r := split_char sep rest
    if c = sep then [] :: r
    else
      match r with
      | [] => [[c]]
      | h :: t => (c :: h) :: t

/-- Split a character list at every character satisfying `p`, keeping
empty pieces. -/
def split_pred (p : Char → Bool) : List Char → List (List Char)
  | [] => [[]]
  | c :: rest =>
    let r := split_pred p rest
    if p c then [] :: r
    else
      match r with
      | [] => [[c]]
      | h :: t => (c :: h) :: t

/-- Model of Rust `str::split_whitespace`: split on whitespace and drop
the empty pieces. -/
def split_whitespace (s : String) : List String :=
  ((split_pred Char.isWhitespace s.data).filter (fun l => !l.isEmpty)).map
    (fun l => String.mk l)

/-- Model of Rust `str::starts_with(p)`. -/
def starts_with (s p : String) : Bool :=
  p.data.isPrefixOf s.data

/-- Model of Rust `str::ends_with(p)`. -/
def ends_with (s p : String) : Bool :=
  p.data.reverse.isPrefixOf s.data.reverse

/-- Fueled worker for substring split: the fuel starts at the length of
the scanned list and each step consumes one unit, so the fuel never runs
out on the reachable calls; splitting is at the leftmost occurrences of
the (non-empty) separator, Rust style. -/
def split_fuel (sep : List Char) : Nat → List Char → List (List Char)
  | _, [] => [[]]
  | 0, l => [l]
  | fuel + 1, c :: rest =>
    if sep.isPrefixOf (c :: rest) then
      [] :: split_fuel sep fuel ((c :: rest).drop sep.length)
    else
      match split_fuel sep fuel rest with
      | [] => [[c]]
      | h :: t => (c :: h) :: t

/-- Model of Rust `str::split(sep)` for an arbitrary string separator.
An empty separator splits between every character, with leading and
trailing empty pieces, as in Rust. -/
def split_on_str (sep s : String) : List String :=
  if sep.data.isEmpty then
    (([] :: s.data.map (fun c => [c])) ++ [[]]).map (fun l => String.mk l)
  else
    (split_fuel sep.data s.data.length s.data).map (fun l => String.mk l)

/-- All-digit check plus decimal value of a character list. -/
def digits_value : Nat → List Char → Option Nat
  | acc, [] => some acc
  | acc, c :: rest =>
    if c.isDigit then digits_value (acc * 10 + (c.toNat - '0'.toNat)) rest
    else none

/-- Model of Rust `str::parse::<i64>()`: an optional sign, at least one
ASCII digit, nothing else, and the value must fit in a signed 64-bit
integer. -/
def parse_i64 (s : String) : Option Int :=
  let core : List Char → (Int → Int) → Option Int := fun l sign =>
    match l with
    | [] => none
    | _ :: _ =>
      match digits_value 0 l with
      | none => none
      | some n =>
        let v := sign (Int.ofNat n)
        if v < -(2 ^ 63) ∨ 2 ^ 63 - 1 < v then none else some v
  match s.data with
  | '-' :: rest => core rest (fun x => -x)
  | '+' :: rest => core rest id
  | l => core l id

/-! ## Tokenizer (src/parser/tokenizer.rs) -/

/-- Comparison type: `<` or `<=`. -/
inductive ComparisonType where
  | LessThan
  | LessThanOrEqualTo
deriving DecidableEq, Repr

/-- Length expression of an array variable: a constant or the name of
another variable. -/
inductive LenExpr where
  | Variable (name : String)
  | Constant (val : Int)
deriving DecidableEq, Repr

/-- A variable reference in an expression: scalar, or array with a
length expression. -/
inductive ExprVariable where
  | Array (name : String) (len : LenExpr)
  | Variable (name : String)
deriving DecidableEq, Repr

/-- A comma-separated group of variable references. -/
abbrev VariableGroup := List ExprVariable

/-- A token of an expression line. -/
inductive Token where
  | Comparison (c : ComparisonType)
  | VariableGroup (g : VariableGroup)
  | NumValue (n : Int)
deriving DecidableEq, Repr

/-- Model of `string_to_variable`: `name[len]#` is an array reference
(`len` a literal integer or a variable name); a token with no bracket
and no space is a scalar variable; anything else fails. -/
def string_to_variable (s : String) : Option ExprVariable :=
  if ends_with s "]#" then
    let new_string : List Char := s.data.take (s.data.length - 2)
    match split_char '[' new_string with
    | [name, len] =>
      match parse_i64 (String.mk len) with
      | some x => some (ExprVariable.Array (String.mk name) (LenExpr.Constant x))
      | none => some (ExprVariable.Array (String.mk name) (LenExpr.Variable (String.mk len)))
    | _ => none
  else if !(s.data.contains '[' || s.data.contains ']' || s.data.contains ' ') then
    some (ExprVariable.Variable s)
  else none

/-- Model of `tokenize`: classify a single whitespace-separated unit. -/
def tokenize (item : String) : Option Token :=
  if item = "<" then some (Token.Comparison ComparisonType.LessThan)
  else if item = "<=" then some (Token.Comparison ComparisonType.LessThanOrEqualTo)
  else
    match item.data.head? with
    | none => none
    | some first =>
      if first.isDigit then
        match parse_i64 item with
        | some result => some (Token.NumValue result)
        | none => none
      else if first.isAlpha then
        if item.data.contains ',' then
          ((split_char ',' item.data).mapM
              (fun part => string_to_variable (String.mk part))).map
            Token.VariableGroup
        else
          (string_to_variable item).map (fun v => Token.VariableGroup [v])
      else none

/-- Model of `tokenize_expr_line`: split the line on whitespace and
tokenize every unit; any malformed unit fails the whole line. -/
def tokenize_expr_line (line : String) : Option (List Token) :=
  (split_whitespace line).mapM tokenize

/-! ## Expression parser (src/parser/parser.rs) -/

/-- One parsed constraint chain (`FuzzExpr` in the source). -/
structure FuzzExpr where
  const_min : Int := 0
  const_max : Int := 0
  vars : List VariableGroup := []
  comparisons : List ComparisonType := []
  contains_array : Bool := false
  less_than_count : Nat := 0
  repr : String := ""
deriving DecidableEq, Repr

/-- Model of `expr_var_arr_contains_arr_var`: does the group hold an
array reference? -/
def expr_var_arr_contains_arr_var (slice : List ExprVariable) : Bool :=
  slice.any (fun item =>
    match item with
    | ExprVariable.Array _ _ => true
    | ExprVariable.Variable _ => false)

/-- Model of `count_less_thans`. -/
def count_less_thans (slice : List ComparisonType) : Nat :=
  (slice.filter (fun x => x == ComparisonType.LessThan)).length

/-- Signed 64-bit wraparound, the release-build semantics of the
`const_max - const_min` subtraction in the parser's feasibility check. -/
def wrap64 (x : Int) : Int :=
  (x + 2 ^ 63) % 2 ^ 64 - 2 ^ 63

/-- The `while tokens.len() > 0` loop of `parse_expr_from_line`:
consume `Comparison`/`VariableGroup` pairs until a `NumValue` appears in
the group position; that value becomes `const_max` and the function
returns at once (any remaining tokens are not inspected).  Falling out
of the loop with tokens exhausted yields `none`. -/
def parse_chain (fe : FuzzExpr) : List Token → Option FuzzExpr
  | [] => none
  | t1 :: rest =>
    match t1 with
    | Token.Comparison comp =>
      let fe := { fe with comparisons := fe.comparisons ++ [comp] }
      match rest with
      | [] => none
      | t2 :: rest2 =>
        match t2 with
        | Token.VariableGroup vars =>
          let fe :=
            if !fe.contains_array && expr_var_arr_contains_arr_var vars then
              { fe with contains_array := true }
            else fe
          parse_chain { fe with vars := fe.vars ++ [vars] } rest2
        | Token.NumValue x =>
          let fe := { fe with
            const_max := x,
            less_than_count := count_less_thans fe.comparisons }
          if x < fe.const_min then none
          else if (wrap64 (fe.const_max - fe.const_min)).natAbs < fe.less_than_count then
            none
          else some fe
        | _ => none
    | _ => none

/-- Model of `parse_expr_from_line`: at least 5 tokens, a leading
`NumValue`/`Comparison`/`VariableGroup` triple, then the pairwise
chain. -/
def parse_expr_from_line (repr : String) (tokens : List Token) : Option FuzzExpr :=
  if tokens.length < 5 then none
  else
    match tokens with
    | Token.NumValue x :: Token.Comparison comp :: Token.VariableGroup vars :: rest =>
      let fe : FuzzExpr :=
        { repr := repr
          const_min := x
          comparisons := [comp]
          contains_array := expr_var_arr_contains_arr_var vars
          vars := [vars] }
      parse_chain fe rest
    | _ => none

/-! ## Specification parser (`FuzzData::parse`) -/

/-- The error enum of the application (src/error.rs); `PathBuf` payloads
are modelled as strings and `std::io::ErrorKind` as a string. -/
inductive AppError where
  | IOError (kind : String)
  | InvalidExpression (line : Nat) (s : String)
  | SameExecutable
  | NotExecutable (p : String)
  | FileNotFound (p : String)
  | InvalidSyntax (line : Nat) (s : String)
  | DoubleDeclaration (s : String)
  | UndeclaredVariable (s : String)
  | MultipleInputOrder
  | NoInputOrder
  | InvalidArraySize (n : Int) (s : String)
  | NoOutput (p : String)
deriving DecidableEq, Repr

/-- The whole parsed specification (`FuzzData` in the source). -/
structure FuzzData where
  exprs : List FuzzExpr
  input_order : List String
  input_separator : String
  output_separator : String
deriving DecidableEq, Repr

/-- Key of the final `sort_by_key` call: `1` for an array-bearing
expression, `0` otherwise. -/
def key_of (e : FuzzExpr) : Nat := if e.contains_array then 1 else 0

/-- One insertion step of a stable sort by `key_of`: the new element
goes after every element with a key less than or equal to its own. -/
def stable_insert (x : FuzzExpr) : List FuzzExpr → List FuzzExpr
  | [] => [x]
  | y :: ys => if key_of y ≤ key_of x then y :: stable_insert x ys else x :: y :: ys

/-- Model of `exprs.sort_by_key(|x| if x.contains_array {1} else {0})`:
Rust's `sort_by_key` is a stable sort, and on a two-valued key every
stable sort coincides with left-to-right stable insertion. -/
def sort_by_array_key (l : List FuzzExpr) : List FuzzExpr :=
  l.foldl (fun acc x => stable_insert x acc) []

/-- The line loop of `FuzzData::parse`: skip comments and blanks, handle
the `input order:` directive, and parse every other line as an
expression.  Returns the expressions in textual order together with the
input order, if one was seen. -/
def parse_loop :
    Nat → List FuzzExpr → Option (List String) → List String →
    Except AppError (List FuzzExpr × Option (List String))
  | _, exprs, iord, [] => Except.ok (exprs, iord)
  | i, exprs, iord, line :: rest =>
    let i := i + 1
    if starts_with line "#" || line.data.isEmpty then
      parse_loop i exprs iord rest
    else if starts_with line "input order:" then
      match iord with
      | none =>
        match split_char ':' line.data with
        | _ :: second :: _ =>
          parse_loop i exprs (some (split_whitespace (String.mk second))) rest
        | _ => Except.error (AppError.InvalidSyntax i line)
      | some _ => Except.error AppError.MultipleInputOrder
    else
      match tokenize_expr_line line with
      | some tokens =>
        match parse_expr_from_line line tokens with
        | some expr => parse_loop i (exprs ++ [expr]) iord rest
        | none => Except.error (AppError.InvalidSyntax i line)
      | none => Except.error (AppError.InvalidExpression i line)

/-- Model of `FuzzData::parse`. -/
def FuzzData.parse (input_separator output_separator : String)
    (lines : List String) : Except AppError FuzzData :=
  match parse_loop 0 [] none lines with
  | Except.error e => Except.error e
  | Except.ok (exprs, iord) =>
    let exprs := sort_by_array_key exprs
    match iord with
    | none => Except.error AppError.NoInputOrder
    | some iordv =>
      Except.ok { exprs := exprs, input_order := iordv,
                  input_separator := input_separator,
                  output_separator := output_separator }

/-- Equality of `Except` results is decidable when both components are. -/
instance exceptDecEq {ε α : Type} [DecidableEq ε] [DecidableEq α] :
    DecidableEq (Except ε α) := fun a b =>
  match a, b with
  | Except.error e, Except.error f =>
    if h : e = f then isTrue (by rw [h]) else isFalse (fun c => by cases c; exact h rfl)
  | Except.error _, Except.ok _ => isFalse (fun c => by cases c)
  | Except.ok _, Except.error _ => isFalse (fun c => by cases c)
  | Except.ok x, Except.ok y =>
    if h : x = y then isTrue (by rw [h]) else isFalse (fun c => by cases c; exact h rfl)

/-! ## Generator and runner (src/exec.rs)

The generator mutates a `VarsData` store through `&mut` references, so
every embedded function threads the store (and the RNG cursor)
explicitly and returns them even on the error path, mirroring the fact
that partial mutations survive a Rust `?` early return.  A run-time
outcome is either `Ok`, a returned `Err(AppError)` (which the `main`
loop catches), or a panic (which aborts the process). -/

/-- A run-time failure: a returned `AppError`, or a Rust panic
(`expect`, out-of-bounds index, arithmetic underflow, empty `Uniform`
range).  Only the former is a catchable value in the source. -/
inductive RunErr where
  | app (e : AppError)
  | panicked (msg : String)
deriving DecidableEq, Repr

/-- Outcome of a run-time step. -/
inductive RunRes (α : Type) where
  | ok (a : α)
  | err (e : RunErr)
deriving DecidableEq, Repr

/-- The variable store (`VarsData`): scalar map and array map.
`HashMap::insert` is modelled by prepending, `get` by the first
matching binding. -/
structure VarsData where
  variables_map : List (String × Int)
  arrays : List (String × List Int)
deriving DecidableEq, Repr

/-- Model of `VarsData::new`. -/
def VarsData.new : VarsData := { variables_map := [], arrays := [] }

/-- Model of `VarsData::set_var` (insert or overwrite). -/
def VarsData.set_var (d : VarsData) (key : String) (val : Int) : VarsData :=
  { d with variables_map := (key, val) :: d.variables_map }

/-- Model of `VarsData::get_var`. -/
def VarsData.get_var (d : VarsData) (key : String) : Option Int :=
  d.variables_map.lookup key

/-- Model of `VarsData::set_arr`. -/
def VarsData.set_arr (d : VarsData) (key : String) (val : List Int) : VarsData :=
  { d with arrays := (key, val) :: d.arrays }

/-- Model of `VarsData::get_arr`. -/
def VarsData.get_arr (d : VarsData) (key : String) : Option (List Int) :=
  d.arrays.lookup key

/-- The RNG oracle: an infinite stream of raw draws and a cursor. -/
structure Rng where
  raw : Nat → Nat
  idx : Nat

/-- Model of `Uniform::from(lo..=hi).sample(rng)` for a non-empty range:
the next raw draw reduced into `[lo, hi]`.  Callers model the panic of
`Uniform::from` on an empty range before sampling. -/
def sample (lo hi : Int) (g : Rng) : Int × Rng :=
  (lo + (Int.ofNat (g.raw g.idx)) % (hi - lo + 1), { g with idx := g.idx + 1 })

/-- The `for _ in 0..=count` loop body of `fill_array`: draw `n` values,
accumulating the running maximum (which the source initializes to `0`).
Returns the drawn values in order, the final accumulator, and the RNG. -/
def fill_loop (lo hi : Int) : Nat → Int → Rng → List Int × Int × Rng
  | 0, acc, g => ([], acc, g)
  | n + 1, acc, g =>
    let s := sample lo hi g
    let r := fill_loop lo hi n (max acc s.1) s.2
    (s.1 :: r.1, r.2.1, r.2.2)

/-- Panic message of the `expect` in `fill_array`. -/
def expectMsg : String := "Failed to retrieve value from variable"

/-- Panic message of `Uniform::from` on an empty range. -/
def emptyRangeMsg : String := "Uniform::from requires low <= high"

/-- Panic message of an out-of-bounds index or slice. -/
def oobMsg : String := "index out of bounds"

/-- Model of `fill_array`.  Mirrors the source order of effects: the
`Uniform` range is built first (panicking on an empty range), then the
length is resolved (`expect` panics when the length variable is
unassigned), a non-positive length is an `InvalidArraySize` error, and
the loop `for _ in 0..=count` draws `count + 1` values. -/
def fill_array (g : Rng) (expr : FuzzExpr) (data : VarsData) (key : String)
    (size : LenExpr) (lo hi : Int) : RunRes Int × VarsData × Rng :=
  if hi < lo then (RunRes.err (RunErr.panicked emptyRangeMsg), data, g)
  else
    match size with
    | LenExpr.Variable k =>
      match data.get_var k with
      | none => (RunRes.err (RunErr.panicked expectMsg), data, g)
      | some count =>
        if count < 1 then
          (RunRes.err (RunErr.app (AppError.InvalidArraySize count expr.repr)), data, g)
        else
          let r := fill_loop lo hi (count.toNat + 1) 0 g
          (RunRes.ok r.2.1, data.set_arr key r.1, r.2.2)
    | LenExpr.Constant count =>
      if count < 1 then
        (RunRes.err (RunErr.app (AppError.InvalidArraySize count expr.repr)), data, g)
      else
        let r := fill_loop lo hi (count.toNat + 1) 0 g
        (RunRes.ok r.2.1, data.set_arr key r.1, r.2.2)

/-- The `for i in 0..expr.vars[depth].len()` loop of
`_recurse_set_variables`: walk the group items, sampling scalars into
the store and filling arrays, threading the group maximum accumulator
`n_max` (initialized to `0` by the caller). -/
def process_items (expr : FuzzExpr) (lo hi : Int) :
    List ExprVariable → VarsData → Int → Rng → RunRes Int × VarsData × Rng
  | [], data, n_max, g => (RunRes.ok n_max, data, g)
  | item :: rest, data, n_max, g =>
    match item with
    | ExprVariable.Variable key =>
      let s := sample lo hi g
      process_items expr lo hi rest (data.set_var key s.1) (max n_max s.1) s.2
    | ExprVariable.Array key len =>
      match fill_array g expr data key len lo hi with
      | (RunRes.ok arr_max, data', g') =>
        process_items expr lo hi rest data' (max n_max arr_max) g'
      | (RunRes.err e, data', g') => (RunRes.err e, data', g')

/-- The `next_min` computation at the end of `_recurse_set_variables`:
the group maximum, incremented when the following comparison is
strict. -/
def next_min_of (c : ComparisonType) (n_max : Int) : Int :=
  if c = ComparisonType.LessThan then n_max + 1 else n_max

/-- Model of `_recurse_set_variables`.  The recursion over `depth` is
made structural on the suffix `groups = expr.vars.drop depth` of the
variable groups; the source's `depth == vars_len` exit test is the
`[]` case.  Each call first reads `comparisons[0]` (an out-of-bounds
panic when the chain has no comparisons, exactly as in the source),
computes the depth's upper bound from the strict comparisons after the
current position (slicing panics when `depth + 1` exceeds the
comparison count), builds the `Uniform` range (panicking when empty),
processes the group, and recurses with `next_min_of`. -/
def recurse_aux (expr : FuzzExpr) :
    List VariableGroup → Nat → Int → VarsData → Rng → RunRes Unit × VarsData × Rng
  | [], _, _, data, g =>
    match expr.comparisons.head? with
    | none => (RunRes.err (RunErr.panicked oobMsg), data, g)
    | some _ => (RunRes.ok (), data, g)
  | group :: rest, depth, minv, data, g =>
    match expr.comparisons.head? with
    | none => (RunRes.err (RunErr.panicked oobMsg), data, g)
    | some c0 =>
      let run_min0 :=
        if c0 = ComparisonType.LessThan then expr.const_min + 1 else expr.const_min
      let run_min := if depth < expr.vars.length then minv else run_min0
      if expr.comparisons.length < depth + 1 then
        (RunRes.err (RunErr.panicked oobMsg), data, g)
      else
        let mx := expr.const_max -
          Int.ofNat (count_less_thans (expr.comparisons.drop (depth + 1)))
        if mx < run_min then (RunRes.err (RunErr.panicked emptyRangeMsg), data, g)
        else
          match process_items expr run_min mx group data 0 g with
          | (RunRes.ok n_max, data', g') =>
            match expr.comparisons.get? (depth + 1) with
            | none => (RunRes.err (RunErr.panicked oobMsg), data', g')
            | some c =>
              recurse_aux expr rest (depth + 1) (next_min_of c n_max) data' g'
          | (RunRes.err e, data', g') => (RunRes.err e, data', g')

/-- Model of `recurse_set_variables`: compute the initial lower bound
from `const_min` and the first comparison and start the recursion at
depth 0. -/
def recurse_set_variables (g : Rng) (expr : FuzzExpr) (data : VarsData) :
    RunRes Unit × VarsData × Rng :=
  match expr.comparisons.head? with
  | none => (RunRes.err (RunErr.panicked oobMsg), data, g)
  | some c0 =>
    let minv :=
      if c0 = ComparisonType.LessThan then expr.const_min + 1 else expr.const_min
    recurse_aux expr expr.vars 0 minv data g

/-- The expression loop at the top of `Runner::run_once`, threading the
store across all expressions. -/
def run_exprs (exprs : List FuzzExpr) (data : VarsData) (g : Rng) :
    RunRes Unit × VarsData × Rng :=
  match exprs with
  | [] => (RunRes.ok (), data, g)
  | e :: rest =>
    match recurse_set_variables g e data with
    | (RunRes.ok _, data', g') => run_exprs rest data' g'
    | (RunRes.err er, data', g') => (RunRes.err er, data', g')

/-- The per-name rendering loop of `build_exec_input`: a scalar formats
as decimal, an array as its elements joined by the separator, anything
else is an `UndeclaredVariable` error. -/
def build_items (vars : VarsData) (sep : String) :
    List String → RunRes (List String)
  | [] => RunRes.ok []
  | name :: rest =>
    match vars.get_var name with
    | some val =>
      match build_items vars sep rest with
      | RunRes.ok pieces => RunRes.ok (toString val :: pieces)
      | RunRes.err e => RunRes.err e
    | none =>
      match vars.get_arr name with
      | some val =>
        match build_items vars sep rest with
        | RunRes.ok pieces =>
          RunRes.ok (String.intercalate sep (val.map toString) :: pieces)
        | RunRes.err e => RunRes.err e
      | none => RunRes.err (RunErr.app (AppError.UndeclaredVariable name))

/-- Model of `build_exec_input`.  The source computes
`template.len() - 1` in `usize` before anything else: on an empty
template that subtraction underflows (a panic in a debug build; in a
release build it wraps and the first index access panics), so the empty
case is a panic, not a result or an `AppError`. -/
def build_exec_input (template : List String) (vars : VarsData) (sep : String) :
    RunRes String :=
  match template with
  | [] => RunErr.panicked "attempt to subtract with overflow" |> RunRes.err
  | _ :: _ =>
    match build_items vars sep template with
    | RunRes.ok pieces => RunRes.ok (String.intercalate sep pieces)
    | RunRes.err e => RunRes.err e

/-- The runner: parsed specification, the store (created once in
`Runner::new` and kept for the whole run), and the two executables. -/
structure Runner where
  data : FuzzData
  variables_store : VarsData
  executable_1 : String
  executable_2 : String

/-- Model of `Runner::new`: the store starts empty. -/
def Runner.new (data : FuzzData) (executable_1 executable_2 : String) : Runner :=
  { data := data, variables_store := VarsData.new,
    executable_1 := executable_1, executable_2 := executable_2 }

/-- Model of `Runner::run_once`.  Child-process execution is abstracted
by `exe : path → stdin → outcome`.  The store mutated by the
expression loop is written back into the runner in every outcome,
mirroring `&mut self`. -/
def Runner.run_once (r : Runner) (g : Rng) (exe : String → String → RunRes String) :
    RunRes Bool × Runner × Rng :=
  match run_exprs r.data.exprs r.variables_store g with
  | (RunRes.err e, store', g') =>
    (RunRes.err e, { r with variables_store := store' }, g')
  | (RunRes.ok _, store', g') =>
    let r' := { r with variables_store := store' }
    match build_exec_input r.data.input_order store' r.data.input_separator with
    | RunRes.err e => (RunRes.err e, r', g')
    | RunRes.ok stdin_str =>
      match exe r.executable_1 stdin_str with
      | RunRes.err e => (RunRes.err e, r', g')
      | RunRes.ok output_1 =>
        match exe r.executable_2 stdin_str with
        | RunRes.err e => (RunRes.err e, r', g')
        | RunRes.ok output_2 =>
          (RunRes.ok
            (split_on_str r.data.output_separator output_1 ==
              split_on_str r.data.output_separator output_2), r', g')

/-- Aggregated counters of the fuzzing loop (src/error.rs). -/
structure AppResultData where
  successful_tests : Nat
  failed_tests : Nat
  error_tests : Nat
deriving DecidableEq, Repr

/-- Model of the iteration loop in `main` (src/main.rs): an `Ok(true)`
iteration counts as a success, `Ok(false)` as a failure, a returned
`Err(AppError)` is counted as an error and the loop proceeds — but a
panic is not a value the `match` can catch: it unwinds and aborts the
whole program, modelled as `Except.error` carrying the panic message. -/
def main_loop (exe : String → String → RunRes String) :
    Nat → Runner → Rng → AppResultData → Except String (AppResultData × Runner × Rng)
  | 0, r, g, acc => Except.ok (acc, r, g)
  | n + 1, r, g, acc =>
    match r.run_once g exe with
    | (RunRes.ok true, r', g') =>
      main_loop exe n r' g'
        { acc with successful_tests := acc.successful_tests + 1 }
    | (RunRes.ok false, r', g') =>
      main_loop exe n r' g' { acc with failed_tests := acc.failed_tests + 1 }
    | (RunRes.err (RunErr.app _), r', g') =>
      main_loop exe n r' g' { acc with error_tests := acc.error_tests + 1 }
    | (RunRes.err (RunErr.panicked m), _, _) => Except.error m

/-- A deterministic RNG oracle whose raw stream is constantly `0`: every
sample comes out as the low end of its range. -/
def rng0 : Rng := { raw := fun _ => 0, idx := 0 }

/-- An executable oracle that echoes its standard input. -/
def echoExe : String → String → RunRes String := fun _ stdin_str => RunRes.ok stdin_str

/-! ## Concrete fixtures used by the claims -/

/-- The expression parsed from `"1 < A < B <= 100"`. -/
def exprC1 : FuzzExpr :=
  FuzzExpr.mk 1 100
    [[ExprVariable.Variable "A"], [ExprVariable.Variable "B"]]
    [ComparisonType.LessThan, ComparisonType.LessThan,
     ComparisonType.LessThanOrEqualTo]
    false 2 "1 < A < B <= 100"

/-- A handcrafted all-negative chain `-10 <= A <= B <= -1` (the
tokenizer cannot produce negative constants, but the generator's domain
`FuzzExpr` admits them). -/
def exprNeg : FuzzExpr :=
  FuzzExpr.mk (-10) (-1)
    [[ExprVariable.Variable "A"], [ExprVariable.Variable "B"]]
    [ComparisonType.LessThanOrEqualTo, ComparisonType.LessThanOrEqualTo,
     ComparisonType.LessThanOrEqualTo]
    false 0 "-10 <= A <= B <= -1"

/-- The expression parsed from `"1 <= A[N]# <= 5"`: an array whose
length is a variable. -/
def exprArrVar : FuzzExpr :=
  FuzzExpr.mk 1 5 [[ExprVariable.Array "A" (LenExpr.Variable "N")]]
    [ComparisonType.LessThanOrEqualTo, ComparisonType.LessThanOrEqualTo]
    true 0 "1 <= A[N]# <= 5"

/-- The expression parsed from `"1 <= A[2]# <= 5"`: an array of
(nominal) length 2. -/
def exprArr2 : FuzzExpr :=
  FuzzExpr.mk 1 5 [[ExprVariable.Array "A" (LenExpr.Constant 2)]]
    [ComparisonType.LessThanOrEqualTo, ComparisonType.LessThanOrEqualTo]
    true 0 "1 <= A[2]# <= 5"

/-- The expression parsed from `"1 <= A <= 5"`. -/
def exprScalarA : FuzzExpr :=
  FuzzExpr.mk 1 5 [[ExprVariable.Variable "A"]]
    [ComparisonType.LessThanOrEqualTo, ComparisonType.LessThanOrEqualTo]
    false 0 "1 <= A <= 5"

/-- The expression parsed from `"1 <= B[2]# <= 5"`. -/
def exprArrB2 : FuzzExpr :=
  FuzzExpr.mk 1 5 [[ExprVariable.Array "B" (LenExpr.Constant 2)]]
    [ComparisonType.LessThanOrEqualTo, ComparisonType.LessThanOrEqualTo]
    true 0 "1 <= B[2]# <= 5"

/-- Specification whose single expression needs the unassigned length
variable `N`. -/
def dataArrVar : FuzzData := FuzzData.mk [exprArrVar] ["A"] " " " "

/-- Specification with one scalar expression, used to watch the store
across iterations. -/
def dataScalarA : FuzzData := FuzzData.mk [exprScalarA] ["A"] " " " "

/-! ## Helper lemmas about the generator -/

theorem sample_fst (lo hi : Int) (g : Rng) :
    (sample lo hi g).1 = lo + (Int.ofNat (g.raw g.idx)) % (hi - lo + 1) := rfl

/-- A sample from a non-empty range lands inside the range. -/
theorem sample_bounds (lo hi : Int) (g : Rng) (h : lo ≤ hi) :
    lo ≤ (sample lo hi g).1 ∧ (sample lo hi g).1 ≤ hi := by
  have h0 : 0 ≤ (Int.ofNat (g.raw g.idx)) % (hi - lo + 1) :=
    Int.emod_nonneg _ (by omega)
  have h1 : (Int.ofNat (g.raw g.idx)) % (hi - lo + 1) < hi - lo + 1 :=
    Int.emod_lt_of_pos _ (by omega)
  rw [sample_fst]
  omega

/-- `process_items` on a single scalar variable: sample once, store it,
fold it into the accumulator. -/
theorem process_items_single (expr : FuzzExpr) (lo hi : Int) (s : String)
    (data : VarsData) (acc : Int) (g : Rng) :
    process_items expr lo hi [ExprVariable.Variable s] data acc g =
      (RunRes.ok (max acc (sample lo hi g).1),
        data.set_var s (sample lo hi g).1, (sample lo hi g).2) := rfl

/-- `process_items` on a group of scalar variables: the result is `ok`,
the final accumulator is the `max`-fold of the drawn values over the
initial accumulator, and (for a non-empty range) every drawn value lies
in the range. -/
theorem process_items_scalars (expr : FuzzExpr) (lo hi : Int)
    (names : List String) :
    ∀ (data : VarsData) (acc : Int) (g : Rng),
    ∃ (vs : List Int) (data' : VarsData) (g' : Rng),
      process_items expr lo hi (names.map ExprVariable.Variable) data acc g =
        (RunRes.ok (vs.foldl max acc), data', g') ∧
      vs.length = names.length ∧
      (lo ≤ hi → ∀ v ∈ vs, lo ≤ v ∧ v ≤ hi) := by
  induction names with
  | nil =>
    intro data acc g
    exact ⟨[], data, g, rfl, rfl, fun _ _ hv => absurd hv (List.not_mem_nil _)⟩
  | cons s rest ih =>
    intro data acc g
    obtain ⟨vs, data', g', heq, hlen, hbnd⟩ :=
      ih (data.set_var s (sample lo hi g).1) (max acc (sample lo hi g).1)
        (sample lo hi g).2
    refine ⟨(sample lo hi g).1 :: vs, data', g', ?_, by simp [hlen], ?_⟩
    · simpa [process_items, List.foldl] using heq
    · intro hlohi v hv
      rcases List.mem_cons.mp hv with rfl | hv
      · exact sample_bounds lo hi g hlohi
      · exact hbnd hlohi v hv

/-- One successful step of the group recursion: when the `Uniform`
range is non-empty and the comparison indices are in bounds, the
recursion continues on the remaining groups at depth `d + 1` with lower
bound `next_min_of c n_max`, where `n_max` is the group accumulator
returned by `process_items` (started at `0`) and `c` the comparison
following the group. -/
theorem recurse_aux_step_ok (expr : FuzzExpr) (group : VariableGroup)
    (rest : List VariableGroup) (depth : Nat) (minv : Int)
    (data data' : VarsData) (g g' : Rng) (n_max : Int) (c0 c : ComparisonType)
    (hc0 : expr.comparisons.head? = some c0)
    (hd : depth < expr.vars.length)
    (hc : expr.comparisons.get? (depth + 1) = some c)
    (hmx : minv ≤ expr.const_max -
      Int.ofNat (count_less_thans (expr.comparisons.drop (depth + 1))))
    (hp : process_items expr minv
      (expr.const_max -
        Int.ofNat (count_less_thans (expr.comparisons.drop (depth + 1))))
      group data 0 g = (RunRes.ok n_max, data', g')) :
    recurse_aux expr (group :: rest) depth minv data g =
      recurse_aux expr rest (depth + 1) (next_min_of c n_max) data' g' := by
  have hlen : depth + 1 < expr.comparisons.length := by
    rcases List.get?_eq_some.mp hc with ⟨h, _⟩
    exact h
  simp only [recurse_aux, hc0, if_pos hd, if_neg (by omega : ¬ expr.comparisons.length < depth + 1),
    if_neg (not_lt.mpr hmx), hp, hc]

/-- Closing step of the group recursion: no groups left, generation
succeeded (provided the comparison list is non-empty, which the source
reads before the depth test). -/
theorem recurse_aux_nil (expr : FuzzExpr) (depth : Nat) (minv : Int)
    (data : VarsData) (g : Rng) (c0 : ComparisonType)
    (hc0 : expr.comparisons.head? = some c0) :
    recurse_aux expr [] depth minv data g = (RunRes.ok (), data, g) := by
  simp [recurse_aux, hc0]

/-! ## Claim C1 -/

/-- C1: for the expression parsed from the line `"1 < A < B <= 100"`,
every successful generation run assigns scalar values to `A` and `B`
with `1 < A`, `A < B`, `A < 100` and `B <= 100`. -/
theorem c1_chain_bounds :
    ((tokenize_expr_line "1 < A < B <= 100").bind
      (parse_expr_from_line "1 < A < B <= 100") = some exprC1) ∧
    ∀ (g : Rng) (data : VarsData),
      (recurse_set_variables g exprC1 data).1 = RunRes.ok () →
      ∃ a b,
        (recurse_set_variables g exprC1 data).2.1.get_var "A" = some a ∧
        (recurse_set_variables g exprC1 data).2.1.get_var "B" = some b ∧
        1 < a ∧ a < b ∧ a < 100 ∧ b ≤ 100 := by
  refine ⟨by decide, ?_⟩
  intro g data _h
  obtain ⟨ha1, ha2⟩ := sample_bounds 2 99 g (by norm_num)
  obtain ⟨hb1, hb2⟩ :=
    sample_bounds ((sample 2 99 g).1 + 1) 100 (sample 2 99 g).2 (by omega)
  have hp1 : process_items exprC1 2
      (exprC1.const_max -
        Int.ofNat (count_less_thans (exprC1.comparisons.drop (0 + 1))))
      [ExprVariable.Variable "A"] data 0 g =
      (RunRes.ok (max 0 (sample 2 99 g).1),
        data.set_var "A" (sample 2 99 g).1, (sample 2 99 g).2) :=
    process_items_single exprC1 2 99 "A" data 0 g
  have e1 : recurse_set_variables g exprC1 data =
      recurse_aux exprC1 [[ExprVariable.Variable "B"]] (0 + 1)
        (next_min_of ComparisonType.LessThan (max 0 (sample 2 99 g).1))
        (data.set_var "A" (sample 2 99 g).1) (sample 2 99 g).2 := by
    exact recurse_aux_step_ok exprC1 [ExprVariable.Variable "A"]
      [[ExprVariable.Variable "B"]] 0 2 data _ g _ _
      ComparisonType.LessThan ComparisonType.LessThan rfl (by decide) rfl
      (by decide) hp1
  have hmax1 : max 0 (sample 2 99 g).1 = (sample 2 99 g).1 :=
    max_eq_right (by omega)
  have hnm1 : next_min_of ComparisonType.LessThan (max 0 (sample 2 99 g).1) =
      (sample 2 99 g).1 + 1 := by rw [hmax1]; rfl
  have hp2 : process_items exprC1 ((sample 2 99 g).1 + 1)
      (exprC1.const_max -
        Int.ofNat (count_less_thans (exprC1.comparisons.drop (1 + 1))))
      [ExprVariable.Variable "B"] (data.set_var "A" (sample 2 99 g).1) 0
      (sample 2 99 g).2 =
      (RunRes.ok (max 0 (sample ((sample 2 99 g).1 + 1) 100 (sample 2 99 g).2).1),
        (data.set_var "A" (sample 2 99 g).1).set_var "B"
          (sample ((sample 2 99 g).1 + 1) 100 (sample 2 99 g).2).1,
        (sample ((sample 2 99 g).1 + 1) 100 (sample 2 99 g).2).2) :=
    process_items_single exprC1 ((sample 2 99 g).1 + 1) 100 "B"
      (data.set_var "A" (sample 2 99 g).1) 0 (sample 2 99 g).2
  have e2 : recurse_aux exprC1 [[ExprVariable.Variable "B"]] (0 + 1)
      ((sample 2 99 g).1 + 1) (data.set_var "A" (sample 2 99 g).1)
      (sample 2 99 g).2 =
      recurse_aux exprC1 [] (1 + 1)
        (next_min_of ComparisonType.LessThanOrEqualTo
          (max 0 (sample ((sample 2 99 g).1 + 1) 100 (sample 2 99 g).2).1))
        ((data.set_var "A" (sample 2 99 g).1).set_var "B"
          (sample ((sample 2 99 g).1 + 1) 100 (sample 2 99 g).2).1)
        (sample ((sample 2 99 g).1 + 1) 100 (sample 2 99 g).2).2 := by
    exact recurse_aux_step_ok exprC1 [ExprVariable.Variable "B"] [] 1
      ((sample 2 99 g).1 + 1) (data.set_var "A" (sample 2 99 g).1) _
      (sample 2 99 g).2 _ _ ComparisonType.LessThan
      ComparisonType.LessThanOrEqualTo rfl (by decide) rfl
      (by show (sample 2 99 g).1 + 1 ≤ (100 : Int); omega) hp2
  have e3 : recurse_set_variables g exprC1 data =
      (RunRes.ok (),
        (data.set_var "A" (sample 2 99 g).1).set_var "B"
          (sample ((sample 2 99 g).1 + 1) 100 (sample 2 99 g).2).1,
        (sample ((sample 2 99 g).1 + 1) 100 (sample 2 99 g).2).2) := by
    rw [e1, hnm1, e2]
    exact recurse_aux_nil exprC1 _ _ _ _ ComparisonType.LessThan rfl
  refine ⟨(sample 2 99 g).1,
    (sample ((sample 2 99 g).1 + 1) 100 (sample 2 99 g).2).1, ?_, ?_,
    by omega, by omega, by omega, by omega⟩
  · rw [e3]
    simp [VarsData.get_var, VarsData.set_var, List.lookup]
  · rw [e3]
    simp [VarsData.get_var, VarsData.set_var, List.lookup]

/-- Witness for C1 at the constant-zero RNG oracle and the empty store:
the run succeeds and the conclusion holds there. -/
theorem c1_chain_bounds_witness :
    ∃ a b,
      (recurse_set_variables rng0 exprC1 VarsData.new).2.1.get_var "A" = some a ∧
      (recurse_set_variables rng0 exprC1 VarsData.new).2.1.get_var "B" = some b ∧
      1 < a ∧ a < b ∧ a < 100 ∧ b ≤ 100 :=
  c1_chain_bounds.2 rng0 VarsData.new (by decide)

/-! ## Claim C2 -/

/-- The array-filling loop: the returned accumulator is the `max`-fold
of the drawn values over the initial accumulator, it draws exactly `n`
values, and (for a non-empty range) all of them lie in the range. -/
theorem fill_loop_spec (lo hi : Int) :
    ∀ (n : Nat) (acc : Int) (g : Rng),
    (fill_loop lo hi n acc g).2.1 = (fill_loop lo hi n acc g).1.foldl max acc ∧
    (fill_loop lo hi n acc g).1.length = n ∧
    (lo ≤ hi → ∀ v ∈ (fill_loop lo hi n acc g).1, lo ≤ v ∧ v ≤ hi) := by
  intro n
  induction n with
  | zero => exact fun acc g => ⟨rfl, rfl, fun _ _ hv => absurd hv (List.not_mem_nil _)⟩
  | succ m ih =>
    intro acc g
    obtain ⟨hfold, hlen, hbnd⟩ := ih (max acc (sample lo hi g).1) (sample lo hi g).2
    refine ⟨?_, ?_, ?_⟩
    · simpa [fill_loop, List.foldl] using hfold
    · simpa [fill_loop] using hlen
    · intro hlohi v hv
      simp only [fill_loop] at hv
      rcases List.mem_cons.mp hv with rfl | hv
      · exact sample_bounds lo hi g hlohi
      · exact hbnd hlohi v hv

/-- C2 counterexample: in the all-negative chain `-10 <= A <= B <= -1`
with the constant-zero RNG oracle, group 0 produces only the value
`-10` for `A`, yet the group accumulator comes back as `0` (it is
initialized to `0`), so the next lower bound is `0`, not the produced
maximum `-10` — and the subsequent group's `Uniform::from(0..=-1)`
panics instead of sampling `B`. -/
theorem c2_next_lower_bound_counterexample :
    (process_items exprNeg (-10) (-1) [ExprVariable.Variable "A"]
      VarsData.new 0 rng0).1 = RunRes.ok 0 ∧
    (process_items exprNeg (-10) (-1) [ExprVariable.Variable "A"]
      VarsData.new 0 rng0).2.1.get_var "A" = some (-10) ∧
    next_min_of ComparisonType.LessThanOrEqualTo 0 ≠ (-10) ∧
    (recurse_set_variables rng0 exprNeg VarsData.new).1 =
      RunRes.err (RunErr.panicked emptyRangeMsg) := by decide

/-- C2 (amended): the lower bound used for the group at position
`d + 1` is `next_min_of c m`, where `m` is the `max`-fold over an
accumulator initialized to `0` of the values produced in group `d` —
i.e. `max 0 (maximum produced)`, not the produced maximum itself — and
an array's contribution is likewise the `max`-fold of its drawn
elements over `0`.  When every produced value is negative the bound is
therefore derived from `0`. -/
theorem c2_next_lower_bound_amended :
    (∀ (expr : FuzzExpr) (names : List String) (rest : List VariableGroup)
       (depth : Nat) (minv : Int) (data : VarsData) (g : Rng)
       (c0 c : ComparisonType),
      expr.comparisons.head? = some c0 →
      depth < expr.vars.length →
      expr.comparisons.get? (depth + 1) = some c →
      minv ≤ expr.const_max -
        Int.ofNat (count_less_thans (expr.comparisons.drop (depth + 1))) →
      ∃ (vs : List Int) (data' : VarsData) (g' : Rng),
        process_items expr minv
          (expr.const_max -
            Int.ofNat (count_less_thans (expr.comparisons.drop (depth + 1))))
          (names.map ExprVariable.Variable) data 0 g =
          (RunRes.ok (vs.foldl max 0), data', g') ∧
        vs.length = names.length ∧
        (∀ v ∈ vs, minv ≤ v ∧
          v ≤ expr.const_max -
            Int.ofNat (count_less_thans (expr.comparisons.drop (depth + 1)))) ∧
        recurse_aux expr (names.map ExprVariable.Variable :: rest) depth minv
            data g =
          recurse_aux expr rest (depth + 1) (next_min_of c (vs.foldl max 0))
            data' g') ∧
    (∀ (g : Rng) (expr : FuzzExpr) (data : VarsData) (key : String)
       (count lo hi : Int),
      lo ≤ hi → 1 ≤ count →
      ∃ (elems : List Int) (g' : Rng),
        fill_array g expr data key (LenExpr.Constant count) lo hi =
          (RunRes.ok (elems.foldl max 0), data.set_arr key elems, g') ∧
        ∀ v ∈ elems, lo ≤ v ∧ v ≤ hi) := by
  constructor
  · intro expr names rest depth minv data g c0 c hc0 hd hc hmx
    obtain ⟨vs, data', g', heq, hlen, hbnd⟩ :=
      process_items_scalars expr minv
        (expr.const_max -
          Int.ofNat (count_less_thans (expr.comparisons.drop (depth + 1))))
        names data 0 g
    exact ⟨vs, data', g', heq, hlen, hbnd hmx,
      recurse_aux_step_ok expr _ rest depth minv data data' g g' _ c0 c hc0 hd
        hc hmx heq⟩
  · intro g expr data key count lo hi hlohi hcount
    obtain ⟨hfold, _, hbnd⟩ := fill_loop_spec lo hi (count.toNat + 1) 0 g
    refine ⟨(fill_loop lo hi (count.toNat + 1) 0 g).1,
      (fill_loop lo hi (count.toNat + 1) 0 g).2.2, ?_, hbnd hlohi⟩
    rw [← hfold]
    simp [fill_array, if_neg (by omega : ¬ hi < lo),
      if_neg (by omega : ¬ count < 1)]

/-- Witness for C2 (amended), instantiated on the all-negative chain at
depth 0 with the constant-zero oracle, and on a length-2 array fill. -/
theorem c2_next_lower_bound_amended_witness :
    (∃ (vs : List Int) (data' : VarsData) (g' : Rng),
      process_items exprNeg (-10)
        (exprNeg.const_max -
          Int.ofNat (count_less_thans (exprNeg.comparisons.drop (0 + 1))))
        ([ExprVariable.Variable "A"]) VarsData.new 0 rng0 =
        (RunRes.ok (vs.foldl max 0), data', g') ∧
      vs.length = 1 ∧
      (∀ v ∈ vs, -10 ≤ v ∧
        v ≤ exprNeg.const_max -
          Int.ofNat (count_less_thans (exprNeg.comparisons.drop (0 + 1)))) ∧
      recurse_aux exprNeg ([ExprVariable.Variable "A"] ::
          [[ExprVariable.Variable "B"]]) 0 (-10) VarsData.new rng0 =
        recurse_aux exprNeg [[ExprVariable.Variable "B"]] (0 + 1)
          (next_min_of ComparisonType.LessThanOrEqualTo (vs.foldl max 0))
          data' g') ∧
    (∃ (elems : List Int) (g' : Rng),
      fill_array rng0 exprArr2 VarsData.new "A" (LenExpr.Constant 2) 1 5 =
        (RunRes.ok (elems.foldl max 0), VarsData.new.set_arr "A" elems, g') ∧
      ∀ v ∈ elems, 1 ≤ v ∧ v ≤ 5) :=
  ⟨c2_next_lower_bound_amended.1 exprNeg ["A"] [[ExprVariable.Variable "B"]]
      0 (-10) VarsData.new rng0 ComparisonType.LessThanOrEqualTo
      ComparisonType.LessThanOrEqualTo rfl (by decide) rfl (by decide),
    c2_next_lower_bound_amended.2 rng0 exprArr2 VarsData.new "A" 2 1 5
      (by norm_num) (by norm_num)⟩

/-! ## Claim C3 -/

/-- C3: evaluation at the failing input.  The line `"1 <= A[2]# <= 5"`
declares an array of length 2, yet generation stores 3 elements: the
loop `for _ in 0..=count` runs `count + 1` times, contradicting
`fill_array`'s own documentation (`size`: length of the array).  The
elements themselves do lie in the `[1, 5]` range. -/
theorem c3_array_element_count_off_by_one :
    ((tokenize_expr_line "1 <= A[2]# <= 5").bind
      (parse_expr_from_line "1 <= A[2]# <= 5") = some exprArr2) ∧
    (recurse_set_variables rng0 exprArr2 VarsData.new).2.1.get_arr "A" =
      some [1, 1, 1] ∧
    ((recurse_set_variables rng0 exprArr2 VarsData.new).2.1.get_arr "A").map
      List.length = some 3 := by decide

/-! ## Claim C4 -/

/-- C4 counterexample: with the single expression `"1 <= A[N]# <= 5"`
and `N` never assigned, generation does not return an iteration-scoped
error — the `expect` in `fill_array` panics, and the fuzzing loop
(which catches only returned `AppError`s) aborts the whole program on
its first iteration instead of counting an error and proceeding. -/
theorem c4_missing_length_var_counterexample :
    (recurse_set_variables rng0 exprArrVar VarsData.new).1 =
      RunRes.err (RunErr.panicked expectMsg) ∧
    main_loop echoExe 2 (Runner.new dataArrVar "a" "b") rng0
      (AppResultData.mk 0 0 0) = Except.error expectMsg :=
  ⟨by decide, by rfl⟩

/-- C4 (amended): when an array's length variable has no assigned value
at generation time, `fill_array` panics via `expect` (rather than
returning an `AppError`), and any iteration whose `run_once` ends in a
panic terminates the whole fuzzing loop with that panic. -/
theorem c4_missing_length_var_amended :
    (∀ (g : Rng) (expr : FuzzExpr) (data : VarsData) (key s : String)
       (lo hi : Int),
      ¬ hi < lo → data.get_var s = none →
      fill_array g expr data key (LenExpr.Variable s) lo hi =
        (RunRes.err (RunErr.panicked expectMsg), data, g)) ∧
    (∀ (exe : String → String → RunRes String) (n : Nat) (r r' : Runner)
       (g g' : Rng) (acc : AppResultData) (m : String),
      r.run_once g exe = (RunRes.err (RunErr.panicked m), r', g') →
      main_loop exe (n + 1) r g acc = Except.error m) := by
  constructor
  · intro g expr data key s lo hi hrange hget
    simp [fill_array, if_neg hrange, hget]
  · intro exe n r r' g g' acc m hrun
    simp [main_loop, hrun]

/-- Witness for C4 (amended): the concrete missing-variable fill and
the concrete aborting loop. -/
theorem c4_missing_length_var_amended_witness :
    fill_array rng0 exprArrVar VarsData.new "A" (LenExpr.Variable "N") 1 5 =
      (RunRes.err (RunErr.panicked expectMsg), VarsData.new, rng0) ∧
    main_loop echoExe 1 (Runner.new dataArrVar "a" "b") rng0
      (AppResultData.mk 0 0 0) = Except.error expectMsg :=
  ⟨c4_missing_length_var_amended.1 rng0 exprArrVar VarsData.new "A" "N" 1 5
      (by norm_num) (by decide),
    c4_missing_length_var_amended.2 echoExe 0 (Runner.new dataArrVar "a" "b")
      (Runner.new dataArrVar "a" "b") rng0 rng0 (AppResultData.mk 0 0 0)
      expectMsg (by rfl)⟩

/-! ## Claim C5 -/

/-- C5 counterexample: after the first `run_once` of a runner built on
the one-expression specification `1 <= A <= 5`, the runner that the
second iteration receives still holds the mapping `A = 1` written by
the first iteration — the store is not empty at the start of the later
call, and after two iterations the (never-cleared) store holds both
inserted bindings. -/
theorem c5_fresh_store_counterexample :
    ((Runner.new dataScalarA "a" "b").run_once rng0
        echoExe).2.1.variables_store.get_var "A" = some 1 ∧
    ((Runner.new dataScalarA "a" "b").run_once rng0
        echoExe).2.1.variables_store ≠ VarsData.new ∧
    ((main_loop echoExe 2 (Runner.new dataScalarA "a" "b") rng0
        (AppResultData.mk 0 0 0)).toOption.map
      (fun t => t.2.1.variables_store)) =
      some (VarsData.mk [("A", 1), ("A", 1)] []) := by decide

/-- C5 (amended): the store is created empty once, in `Runner::new`,
and is then owned by the runner for the whole run: every `run_once`
call hands its (possibly partially) mutated store to the next
iteration, so mappings written during one call remain readable during
later calls until overwritten. -/
theorem c5_fresh_store_amended :
    (∀ (d : FuzzData) (e1 e2 : String),
      (Runner.new d e1 e2).variables_store = VarsData.new) ∧
    (∀ (r : Runner) (g : Rng) (exe : String → String → RunRes String),
      ((r.run_once g exe).2.1).variables_store =
        (run_exprs r.data.exprs r.variables_store g).2.1) := by
  refine ⟨fun _ _ _ => rfl, ?_⟩
  intro r g exe
  unfold Runner.run_once
  rcases hrun : run_exprs r.data.exprs r.variables_store g with ⟨res, store', g'⟩
  cases res <;> (dsimp only; repeat' split) <;> rfl

/-! ## Parser structure lemmas (shared by the parser claims) -/

/-- A successful expression parse decomposes into the leading
`NumValue`/`Comparison`/`VariableGroup` triple and a successful chain
parse of the remaining tokens. -/
theorem parse_expr_from_line_elim (repr : String) (ts : List Token)
    (e : FuzzExpr) (hp : parse_expr_from_line repr ts = some e) :
    ∃ x comp vars rest,
      ts = Token.NumValue x :: Token.Comparison comp ::
        Token.VariableGroup vars :: rest ∧
      ¬ ts.length < 5 ∧
      parse_chain (FuzzExpr.mk x 0 [vars] [comp]
        (expr_var_arr_contains_arr_var vars) 0 repr) rest = some e := by
  by_cases h5 : ts.length < 5
  · exfalso
    simp only [parse_expr_from_line, if_pos h5] at hp
    exact Option.noConfusion hp
  rcases ts with _ | ⟨t1, _ | ⟨t2, _ | ⟨t3, rest⟩⟩⟩ <;>
    try (exfalso; simp only [List.length] at h5; omega)
  cases t1 <;> cases t2 <;> cases t3 <;>
    simp only [parse_expr_from_line, if_neg h5] at hp <;> try cases hp
  exact ⟨_, _, _, rest, rfl, h5, hp⟩

/-- `parse_chain` never inspects tokens after the terminating
`NumValue`: appending extra tokens cannot turn a success into a
failure or change the result. -/
theorem parse_chain_append :
    ∀ (n : Nat) (ts : List Token), ts.length ≤ n →
    ∀ (fe e : FuzzExpr) (extra : List Token),
    parse_chain fe ts = some e → parse_chain fe (ts ++ extra) = some e := by
  intro n
  induction n with
  | zero =>
    intro ts hlen fe e extra hp
    rw [List.length_eq_zero.mp (Nat.le_zero.mp hlen)] at hp
    simp [parse_chain] at hp
  | succ m ih =>
    intro ts hlen fe e extra hp
    rcases ts with _ | ⟨t1, rest⟩
    · simp [parse_chain] at hp
    cases t1 with
    | Comparison comp =>
      rcases rest with _ | ⟨t2, rest2⟩
      · simp [parse_chain] at hp
      cases t2 with
      | VariableGroup vars =>
        simp only [parse_chain, List.cons_append] at hp ⊢
        exact ih rest2 (by simp only [List.length] at hlen; omega) _ e extra hp
      | NumValue x =>
        simp only [parse_chain, List.cons_append] at hp ⊢
        exact hp
      | Comparison c2 => simp [parse_chain] at hp
    | VariableGroup g1 => simp [parse_chain] at hp
    | NumValue n1 => simp [parse_chain] at hp

/-- The feasibility checks performed when `parse_chain` reaches the
terminating `NumValue`: every successful parse satisfies them, and the
stored strict-comparison count is the count over the stored chain. -/
theorem parse_chain_checks :
    ∀ (n : Nat) (ts : List Token), ts.length ≤ n →
    ∀ (fe e : FuzzExpr), parse_chain fe ts = some e →
    ¬ e.const_max < e.const_min ∧
    ¬ (wrap64 (e.const_max - e.const_min)).natAbs < e.less_than_count ∧
    e.less_than_count = count_less_thans e.comparisons := by
  intro n
  induction n with
  | zero =>
    intro ts hlen fe e hp
    rw [List.length_eq_zero.mp (Nat.le_zero.mp hlen)] at hp
    simp [parse_chain] at hp
  | succ m ih =>
    intro ts hlen fe e hp
    rcases ts with _ | ⟨t1, rest⟩
    · simp [parse_chain] at hp
    cases t1 with
    | Comparison comp =>
      rcases rest with _ | ⟨t2, rest2⟩
      · simp [parse_chain] at hp
      cases t2 with
      | VariableGroup vars =>
        simp only [parse_chain] at hp
        exact ih rest2 (by simp only [List.length] at hlen; omega) _ e hp
      | NumValue x =>
        simp only [parse_chain] at hp
        split at hp
        · cases hp
        · split at hp
          · cases hp
          · cases hp
            refine ⟨by assumption, by assumption, rfl⟩
      | Comparison c2 => simp [parse_chain] at hp
    | VariableGroup g1 => simp [parse_chain] at hp
    | NumValue n1 => simp [parse_chain] at hp

/-- When the 64-bit-wrapped span check passes, the span itself bounds
any strict-comparison count that fits in `2 ^ 63`. -/
theorem wrap64_span_le (d : Int) (k : Nat) (hd : 0 ≤ d) (hk : k ≤ 2 ^ 63)
    (h : ¬ (wrap64 d).natAbs < k) : (k : Int) ≤ d := by
  unfold wrap64 at h
  omega

/-! ## Claim C6 -/

/-- C6 counterexample: the token sequence of `"1 < A < 5 < 9"` has the
terminating `NumValue 5` followed by two further tokens, yet
`parse_expr_from_line` succeeds (returning the chain parsed up to `5`)
instead of failing. -/
theorem c6_trailing_tokens_counterexample :
    (tokenize_expr_line "1 < A < 5 < 9").bind
      (parse_expr_from_line "1 < A < 5 < 9") =
    some (FuzzExpr.mk 1 5 [[ExprVariable.Variable "A"]]
      [ComparisonType.LessThan, ComparisonType.LessThan] false 2
      "1 < A < 5 < 9") := by decide

/-- C6 (amended): the parser returns as soon as a `NumValue` appears in
the position where a `VariableGroup` was expected, ignoring any tokens
after it: appending arbitrary trailing tokens to a successfully parsed
sequence leaves the parse result unchanged (it does not fail). -/
theorem c6_trailing_tokens_amended :
    ∀ (repr : String) (ts extra : List Token) (e : FuzzExpr),
    parse_expr_from_line repr ts = some e →
    parse_expr_from_line repr (ts ++ extra) = some e := by
  intro repr ts extra e hp
  obtain ⟨x, comp, vars, rest, hts, h5, hchain⟩ :=
    parse_expr_from_line_elim repr ts e hp
  subst hts
  have h5' : ¬ (Token.NumValue x :: Token.Comparison comp ::
      Token.VariableGroup vars :: (rest ++ extra)).length < 5 := by
    simp only [List.length, List.length_append] at h5 ⊢
    omega
  simp only [List.cons_append, parse_expr_from_line, if_neg h5']
  exact parse_chain_append rest.length rest le_rfl _ e extra hchain

/-- Witness for C6 (amended): appending `NumValue 9` after the
terminating constant of `"1 <= A <= 5"` still parses, to the same
expression. -/
theorem c6_trailing_tokens_amended_witness :
    parse_expr_from_line "1 <= A <= 5"
      ([Token.NumValue 1, Token.Comparison ComparisonType.LessThanOrEqualTo,
        Token.VariableGroup [ExprVariable.Variable "A"],
        Token.Comparison ComparisonType.LessThanOrEqualTo,
        Token.NumValue 5] ++ [Token.NumValue 9]) = some exprScalarA :=
  c6_trailing_tokens_amended "1 <= A <= 5" _ [Token.NumValue 9] exprScalarA
    (by decide)

/-! ## Claim C7 -/

/-- C7: every successfully parsed chain satisfies the feasibility
checks — `const_max` is at least `const_min`, the (64-bit-wrapped) span
is at least the strict-comparison count, and hence (for any physically
realizable count, i.e. one at most `2 ^ 63`) the true span
`const_max - const_min` is at least the number of strict comparisons in
the chain; and the constraint file line `"1000 < A <= 1"` fails with an
invalid-syntax error carrying its 1-based line number and verbatim
text. -/
theorem c7_infeasible_chain_rejected :
    (∀ (repr : String) (ts : List Token) (e : FuzzExpr),
      parse_expr_from_line repr ts = some e →
      e.const_min ≤ e.const_max ∧
      ¬ (wrap64 (e.const_max - e.const_min)).natAbs < e.less_than_count ∧
      e.less_than_count = count_less_thans e.comparisons ∧
      (e.less_than_count ≤ 2 ^ 63 →
        (e.less_than_count : Int) ≤ e.const_max - e.const_min)) ∧
    FuzzData.parse " " " " ["1000 < A <= 1", "input order: A"] =
      Except.error (AppError.InvalidSyntax 1 "1000 < A <= 1") := by
  refine ⟨?_, by decide⟩
  intro repr ts e hp
  obtain ⟨x, comp, vars, rest, hts, h5, hchain⟩ :=
    parse_expr_from_line_elim repr ts e hp
  obtain ⟨h1, h2, h3⟩ := parse_chain_checks rest.length rest le_rfl _ e hchain
  refine ⟨by omega, h2, h3, ?_⟩
  intro hk
  exact wrap64_span_le (e.const_max - e.const_min) e.less_than_count
    (by omega) hk h2

/-- Witness for C7 at the parsed expression of `"1 <= A <= 5"`. -/
theorem c7_infeasible_chain_rejected_witness :
    exprScalarA.const_min ≤ exprScalarA.const_max ∧
    ¬ (wrap64 (exprScalarA.const_max - exprScalarA.const_min)).natAbs <
      exprScalarA.less_than_count ∧
    exprScalarA.less_than_count = count_less_thans exprScalarA.comparisons ∧
    (exprScalarA.less_than_count ≤ 2 ^ 63 →
      (exprScalarA.less_than_count : Int) ≤
        exprScalarA.const_max - exprScalarA.const_min) :=
  c7_infeasible_chain_rejected.1 "1 <= A <= 5"
    [Token.NumValue 1, Token.Comparison ComparisonType.LessThanOrEqualTo,
     Token.VariableGroup [ExprVariable.Variable "A"],
     Token.Comparison ComparisonType.LessThanOrEqualTo, Token.NumValue 5]
    exprScalarA (by decide)

/-! ## Claim C8 -/

/-- Inserting an array-bearing expression goes to the very end: every
key is at most its key. -/
theorem stable_insert_true (x : FuzzExpr) (hx : x.contains_array = true) :
    ∀ l, stable_insert x l = l ++ [x] := by
  intro l
  induction l with
  | nil => rfl
  | cons y ys ih =>
    simp only [stable_insert, List.cons_append]
    rw [if_pos (by simp only [key_of, hx, if_true]; split <;> omega), ih]

/-- Inserting a scalar-only expression into a scalar-block followed by
an array-block lands exactly between the blocks. -/
theorem stable_insert_false (x : FuzzExpr) (hx : x.contains_array = false) :
    ∀ (F T : List FuzzExpr), (∀ a ∈ F, a.contains_array = false) →
    (∀ a ∈ T, a.contains_array = true) →
    stable_insert x (F ++ T) = F ++ x :: T := by
  intro F
  induction F with
  | nil =>
    intro T _ hT
    cases T with
    | nil => rfl
    | cons t ts =>
      simp only [List.nil_append, stable_insert]
      rw [if_neg (by simp [key_of, hx, hT t (List.mem_cons_self t ts)])]
  | cons f fs ih =>
    intro T hF hT
    simp only [List.cons_append, stable_insert, List.append_eq]
    rw [if_pos (by simp [key_of, hx, hF f (List.mem_cons_self f fs)]),
      ih T (fun a ha => hF a (List.mem_cons_of_mem f ha)) hT]

/-- Invariant of the left-to-right insertion fold: starting from a
scalar-block/array-block split accumulator, the fold appends the new
scalars (in order) to the scalar block and the new array expressions
(in order) to the array block. -/
theorem foldl_stable_insert (l : List FuzzExpr) :
    ∀ (F T : List FuzzExpr), (∀ a ∈ F, a.contains_array = false) →
    (∀ a ∈ T, a.contains_array = true) →
    l.foldl (fun acc x => stable_insert x acc) (F ++ T) =
      (F ++ l.filter (fun e => !e.contains_array)) ++
        (T ++ l.filter (fun e => e.contains_array)) := by
  induction l with
  | nil => intro F T _ _; simp
  | cons x xs ih =>
    intro F T hF hT
    simp only [List.foldl]
    cases hx : x.contains_array with
    | true =>
      rw [stable_insert_true x hx (F ++ T), List.append_assoc,
        ih F (T ++ [x]) hF (by
          intro a ha
          rcases List.mem_append.mp ha with ha | ha
          · exact hT a ha
          · rw [List.mem_singleton.mp ha]; exact hx)]
      simp [List.filter_cons, hx, List.append_assoc]
    | false =>
      rw [stable_insert_false x hx F T hF hT,
        show F ++ x :: T = (F ++ [x]) ++ T from by simp,
        ih (F ++ [x]) T (by
          intro a ha
          rcases List.mem_append.mp ha with ha | ha
          · exact hF a ha
          · rw [List.mem_singleton.mp ha]; exact hx) hT]
      simp [List.filter_cons, hx, List.append_assoc]

/-- `sort_by_array_key` is exactly the boolean-key partition: the
scalar-only expressions in textual order, then the array-bearing ones
in textual order. -/
theorem sort_by_array_key_partition (l : List FuzzExpr) :
    sort_by_array_key l =
      l.filter (fun e => !e.contains_array) ++
        l.filter (fun e => e.contains_array) := by
  have h := foldl_stable_insert l [] []
    (fun a ha => absurd ha (List.not_mem_nil a))
    (fun a ha => absurd ha (List.not_mem_nil a))
  simpa [sort_by_array_key] using h

/-- C8: after the line loop, the expression list is reordered by a
stable sort on the boolean key `contains_array`: the parse result is
exactly the scalar-only expressions in their textual order followed by
the array-bearing expressions in their textual order. -/
theorem c8_array_exprs_sorted_last :
    ∀ (isep osep : String) (lines : List String) (exprs : List FuzzExpr)
      (iord : List String),
    parse_loop 0 [] none lines = Except.ok (exprs, some iord) →
    FuzzData.parse isep osep lines =
      Except.ok (FuzzData.mk
        (exprs.filter (fun e => !e.contains_array) ++
          exprs.filter (fun e => e.contains_array))
        iord isep osep) := by
  intro isep osep lines exprs iord hl
  unfold FuzzData.parse
  rw [hl]
  simp [sort_by_array_key_partition]

/-- Witness for C8: a file whose array-bearing expression comes first in
the text ends up after the scalar one. -/
theorem c8_array_exprs_sorted_last_witness :
    FuzzData.parse " " " "
      ["1 <= B[2]# <= 5", "1 <= A <= 5", "input order: A B"] =
      Except.ok (FuzzData.mk
        ([exprArrB2, exprScalarA].filter (fun e => !e.contains_array) ++
          [exprArrB2, exprScalarA].filter (fun e => e.contains_array))
        ["A", "B"] " " " ") :=
  c8_array_exprs_sorted_last " " " "
    ["1 <= B[2]# <= 5", "1 <= A <= 5", "input order: A B"]
    [exprArrB2, exprScalarA] ["A", "B"] (by decide)

/-! ## Claim C9 -/

/-- C9: tokenizing `"1 < A <= C,D <= 100000"` yields exactly the
expected token sequence, and parsing it yields the expression with
`const_min = 1`, `const_max = 100000`, `vars = [[A], [C, D]]`,
`less_than_count = 1` and `contains_array = false`. -/
theorem c9_tokenize_parse_example :
    tokenize_expr_line "1 < A <= C,D <= 100000" =
      some [Token.NumValue 1, Token.Comparison ComparisonType.LessThan,
        Token.VariableGroup [ExprVariable.Variable "A"],
        Token.Comparison ComparisonType.LessThanOrEqualTo,
        Token.VariableGroup [ExprVariable.Variable "C",
          ExprVariable.Variable "D"],
        Token.Comparison ComparisonType.LessThanOrEqualTo,
        Token.NumValue 100000] ∧
    parse_expr_from_line "1 < A <= C,D <= 100000"
      [Token.NumValue 1, Token.Comparison ComparisonType.LessThan,
       Token.VariableGroup [ExprVariable.Variable "A"],
       Token.Comparison ComparisonType.LessThanOrEqualTo,
       Token.VariableGroup [ExprVariable.Variable "C",
         ExprVariable.Variable "D"],
       Token.Comparison ComparisonType.LessThanOrEqualTo,
       Token.NumValue 100000] =
      some (FuzzExpr.mk 1 100000
        [[ExprVariable.Variable "A"],
         [ExprVariable.Variable "C", ExprVariable.Variable "D"]]
        [ComparisonType.LessThan, ComparisonType.LessThanOrEqualTo,
         ComparisonType.LessThanOrEqualTo]
        false 1 "1 < A <= C,D <= 100000") := by decide

/-! ## Claim C10 -/

/-- C10: the directive line `"input order:"` with nothing after the
colon is accepted and yields an empty input order; and
`build_exec_input` is not total on an empty name list — the
`template.len() - 1` subtraction underflows (a panic, not a returned
result or error). -/
theorem c10_empty_input_order_underflow :
    FuzzData.parse " " " " ["input order:"] =
      Except.ok (FuzzData.mk [] [] " " " ") ∧
    ∀ (vars : VarsData) (sep : String),
      build_exec_input [] vars sep =
        RunRes.err (RunErr.panicked "attempt to subtract with overflow") :=
  ⟨by decide, fun _ _ => rfl⟩

/-! ## The source's unit tests, reproduced against the embedding -/

/-- The `test_string_to_variable` cases of src/parser/tokenizer.rs. -/
theorem embed_test_string_to_variable :
    string_to_variable "variable" = some (ExprVariable.Variable "variable") ∧
    string_to_variable "array[100]#" =
      some (ExprVariable.Array "array" (LenExpr.Constant 100)) ∧
    string_to_variable "array[N]#" =
      some (ExprVariable.Array "array" (LenExpr.Variable "N")) ∧
    string_to_variable "this is invalid" = none ∧
    string_to_variable "this[is not valid]" = none ∧
    string_to_variable "this_is_not_valid[100]" = none ∧
    string_to_variable "this_is_not[]valid" = none := by decide

/-- The `test_tokenize` cases of src/parser/tokenizer.rs. -/
theorem embed_test_tokenize :
    tokenize " " = none ∧
    tokenize "<" = some (Token.Comparison ComparisonType.LessThan) ∧
    tokenize "<=" = some (Token.Comparison ComparisonType.LessThanOrEqualTo) ∧
    tokenize "A,B" = some (Token.VariableGroup
      [ExprVariable.Variable "A", ExprVariable.Variable "B"]) ∧
    tokenize "123" = some (Token.NumValue 123) ∧
    tokenize "1_invalid_var" = none ∧
    tokenize "variable" = some (Token.VariableGroup
      [ExprVariable.Variable "variable"]) := by decide

/-- The invalid line of `test_tokenize_line` of src/parser/tokenizer.rs. -/
theorem embed_test_tokenize_line_invalid :
    tokenize_expr_line "3.4 < 123 != 2_XYZ" = none := by decide

/-- The `test_parse_valid_tokens` case of src/parser/parser.rs. -/
theorem embed_test_parse_valid_tokens :
    parse_expr_from_line "1 < A[10]# <= C,D <= 100000"
      [Token.NumValue 1, Token.Comparison ComparisonType.LessThan,
       Token.VariableGroup [ExprVariable.Array "A" (LenExpr.Constant 10)],
       Token.Comparison ComparisonType.LessThanOrEqualTo,
       Token.VariableGroup [ExprVariable.Variable "C",
         ExprVariable.Variable "D"],
       Token.Comparison ComparisonType.LessThanOrEqualTo,
       Token.NumValue 100000] =
    some (FuzzExpr.mk 1 100000
      [[ExprVariable.Array "A" (LenExpr.Constant 10)],
       [ExprVariable.Variable "C", ExprVariable.Variable "D"]]
      [ComparisonType.LessThan, ComparisonType.LessThanOrEqualTo,
       ComparisonType.LessThanOrEqualTo]
      true 1 "1 < A[10]# <= C,D <= 100000") := by decide

/-- The `test_parse_invalid_tokens` case of src/parser/parser.rs: a
leading comparison fails. -/
theorem embed_test_parse_invalid_tokens :
    parse_expr_from_line "< A[10]# <= C,D <= <= 100000"
      [Token.Comparison ComparisonType.LessThan,
       Token.VariableGroup [ExprVariable.Array "A" (LenExpr.Constant 10)],
       Token.Comparison ComparisonType.LessThanOrEqualTo,
       Token.VariableGroup [ExprVariable.Variable "C",
         ExprVariable.Variable "D"],
       Token.Comparison ComparisonType.LessThanOrEqualTo,
       Token.Comparison ComparisonType.LessThanOrEqualTo,
       Token.NumValue 100000] = none := by decide

/-- The invalid-file cases of src/parser/parser.rs:
`test_parse_invalid_max_bigger_than_min`, `test_parse_invalid_file_syntax`
and `test_parse_invalid_range`. -/
theorem embed_test_parse_invalid_files :
    FuzzData.parse "\n" "\n"
      ["# Comment", "", "1000 < A[10]# <= C,D <= 1", "input order: A C D"] =
      Except.error (AppError.InvalidSyntax 3 "1000 < A[10]# <= C,D <= 1") ∧
    FuzzData.parse "\n" "\n"
      ["# Comment", "", "()", "1 < A[10]# <= C,D <= 100000",
       "input order: A C D"] =
      Except.error (AppError.InvalidExpression 3 "()") ∧
    FuzzData.parse "\n" "\n"
      ["# Comment", "", "0 < A < B < 2", "input order: A C D"] =
      Except.error (AppError.InvalidSyntax 3 "0 < A < B < 2") := by decide

/-- The `test_build_vars_from_template` cases of src/exec.rs. -/
theorem embed_test_build_exec_input :
    build_exec_input ["A", "B"]
      ((VarsData.new.set_var "A" 100).set_var "B" 200) " " =
      RunRes.ok "100 200" ∧
    build_exec_input ["A", "B"]
      ((VarsData.new.set_arr "A" [10, 20, 30]).set_arr "B" [40, 50, 60]) " " =
      RunRes.ok "10 20 30 40 50 60" := by decide
